import Mathlib

/-!
Verification of the document segmentation and numbering engine of
`src/tools/modules/book.js` (the `build` function, lines 133-299).

The engine walks the Markdown source line by line (the source is split on
line breaks before the loop, so a document is modelled as `List Line` with
`Line := List Char`), appends a synthetic sentinel line `## END OF FILE`,
classifies each line (code-fence toggle / heading / ordinary content),
accumulates summary entries, sections and content buffers, and finally
pops the sentinel's summary entry.

External collaborators (`markdown-it`'s `render` and `renderInline`) are
parameters of the embedding.  JavaScript strings are modelled as `List Char`
(`toLocaleLowerCase` as per-character ASCII lowercasing, `trim` as removal
of leading/trailing whitespace characters).  The JavaScript number array
`counter` is modelled as `List JsNum` where `JsNum := Option Nat`; `none`
models both `NaN` and array holes: both are skipped by
`counter.filter(c => c > 0)` and both are overwritten with `0` by the reset
loop, which is the only way the engine observes them.
-/

/-- Decidable equality of `Except` results, used to evaluate the engine
on concrete documents in witness statements. -/
instance {ε α : Type} [DecidableEq ε] [DecidableEq α] :
    DecidableEq (Except ε α) := fun x y =>
  match x, y with
  | .error e, .error f =>
    if h : e = f then .isTrue (by rw [h])
    else .isFalse (fun hh => h (Except.error.inj hh))
  | .ok a, .ok b =>
    if h : a = b then .isTrue (by rw [h])
    else .isFalse (fun hh => h (Except.ok.inj hh))
  | .error _, .ok _ => .isFalse (fun hh => Except.noConfusion hh)
  | .ok _, .error _ => .isFalse (fun hh => Except.noConfusion hh)

/-- One line of the source document (a JavaScript string). -/
abbrev Line := List Char

/-- `line.startsWith('#')` (book.js line 171). -/
def startsHash (l : Line) : Bool := l.take 1 = ['#']

/-- `line.startsWith('```')` (book.js line 165). -/
def startsTicks (l : Line) : Bool := l.take 3 = "```".data

/-- `line.trim()` (book.js line 287 and 207): strip leading and trailing
whitespace.  Only emptiness of the result is ever used by the engine. -/
def jsTrim (l : Line) : Line :=
  ((l.dropWhile Char.isWhitespace).reverse.dropWhile Char.isWhitespace).reverse

/-- The heading depth: length of `match[1]` for `/^(#+) *(.*)$/`
(book.js line 173-176).  The greedy `(#+)` captures the entire leading
run of `#` characters. -/
def hDepth (l : Line) : Nat := (l.takeWhile (· = '#')).length

/-- The heading text: `match[2]` for `/^(#+) *(.*)$/` (book.js line 179):
everything after the leading `#` run and the (possibly empty) run of
spaces.  Note that ` *` matches zero or more spaces, so a line such as
`#foo` still matches, with text `foo`. -/
def hTitle (l : Line) : Line := (l.dropWhile (· = '#')).dropWhile (· = ' ')

/-- The character class `[a-z0-9-_]` of the slug regexp (book.js line 186). -/
def isSlugChar (c : Char) : Bool :=
  (97 ≤ c.toNat && c.toNat ≤ 122) || (48 ≤ c.toNat && c.toNat ≤ 57) ||
    c = '-' || c = '_'

/-- Slug generation (book.js lines 182-186):
`title.toLocaleLowerCase().replace(/ /g, '-').replace(/[^a-z0-9-_]/g, '')`.
`toLocaleLowerCase` is modelled as per-character ASCII lowercasing. -/
def slug (title : Line) : Line :=
  ((title.map Char.toLower).map (fun c => if c = ' ' then '-' else c)).filter
    isSlugChar

/-- A JavaScript numeric array cell: `none` models `NaN` (produced by
`undefined + 1` when incrementing past the end of the array) and array
holes; `some n` models the ordinary non-negative integers the engine
stores. -/
abbrev JsNum := Option Nat

/-- Array read `counter[i]`: reading past the end yields `undefined`,
which the subsequent `++` turns into `NaN`, so it is modelled as `none`. -/
def jsGet (c : List JsNum) (i : Nat) : JsNum := (c.get? i).getD none

/-- `x + 1` on a cell: `NaN + 1 = NaN`. -/
def jsInc : JsNum → JsNum
  | none => none
  | some n => some (n + 1)

/-- Array write `counter[i] = v`: writing past the end grows the array,
padding with holes. -/
def jsSet (c : List JsNum) (i : Nat) (v : JsNum) : List JsNum :=
  if i < c.length then c.set i v
  else c ++ List.replicate (i - c.length) none ++ [v]

/-- The reset loop `for (let i = depth + 1; i < counter.length; i++)
counter[i] = 0` (book.js lines 246-248); the first argument is the
running index of the cell at the head of the list. -/
def resetAbove (d : Nat) : Nat → List JsNum → List JsNum
  | _, [] => []
  | i, v :: rest => (if d < i then some 0 else v) :: resetAbove d (i + 1) rest

/-- The counter update for a heading of depth ≠ 1 (book.js lines 241-249):
`counter[depth]++` followed by the reset loop. -/
def counterAdvance (c : List JsNum) (depth : Nat) : List JsNum :=
  resetAbove depth 0 (jsSet c depth (jsInc (jsGet c depth)))

/-- `counter.filter(c => c > 0).join('.') + '.'` (book.js line 269).
`filter` skips holes and rejects `NaN` (since `NaN > 0` is false), which
is exactly `filterMap id` followed by the positivity filter. -/
def labelOf (c : List JsNum) : Line :=
  (List.intercalate ['.']
    (((c.filterMap id).filter (fun n => 0 < n)).map (fun n => (Nat.repr n).data)))
    ++ ['.']

/-- The `title_obj` record (book.js lines 252-270) minus the `_TITLE`
discriminator marker, which becomes the `Item.title` constructor. -/
structure Title where
  text : Line
  slug : Line
  depth : Nat
  section_slug : Line
  is_main_title : Bool
  is_section : Bool
  is_subtitle : Bool
  is_max_subtitle : Bool
  is_subsubtitle_or_more : Bool
  depth_dec : Nat
  prettydepth : Line
  deriving DecidableEq

/-- An entry of a section buffer: either a `{_CONTENT: true, html}`
record (book.js lines 209-212) or a `title_obj` (book.js line 281). -/
inductive Item where
  | content (html : Line)
  | title (t : Title)
  deriving DecidableEq

/-- A finished section `{slug, content}` (book.js lines 227-230). -/
structure BookSection where
  slug : Line
  content : List Item
  deriving DecidableEq

/-- The data handed to the template (book.js lines 422-426): the main
title, the summary (after the sentinel entry is popped) and the sections. -/
structure DocumentModel where
  mainTitle : Option Title
  summary : List Title
  sections : List BookSection
  deriving DecidableEq

/-- The fatal structural errors of the segmentation loop; `error(...)`
aborts the whole build, so no output is produced.  The numbers are the
process exit codes used at book.js lines 193, 198 and 289. -/
inductive BuildError where
  | mainTitleNotFound      -- book.js line 193, exit code 9
  | duplicateMainTitle     -- book.js line 198, exit code 10
  | contentOutsideSections -- book.js line 289, exit code 11
  deriving DecidableEq

/-- The mutable state threaded through the `for` loop
(book.js lines 133-158). -/
structure BuildState where
  summary : List Title
  sections : List BookSection
  sectionBuff : List Item
  titleBuff : List Line
  mainTitle : Option Title
  lastSlug : Line
  counter : List JsNum
  firstSection : Bool
  inCodeBlock : Bool
  deriving DecidableEq

/-- The initial state (book.js lines 133-158): empty buffers, an empty
`lastSlug`, `counter = [0, 0, 0, 0, 0]`, `firstSection = true`,
`inCodeBlock = false`. -/
def initState : BuildState :=
  { summary := []
    sections := []
    sectionBuff := []
    titleBuff := []
    mainTitle := none
    lastSlug := []
    counter := [some 0, some 0, some 0, some 0, some 0]
    firstSection := true
    inCodeBlock := false }

/-- `inCodeBlock` after the fence toggle at the top of the loop body
(book.js lines 165-167). -/
def toggledCB (s : BuildState) (l : Line) : Bool :=
  if startsTicks l then !s.inCodeBlock else s.inCodeBlock

/-- `lastSlug` after processing a heading line (book.js line 237): a
depth-2 heading installs its own slug, every other depth leaves it. -/
def hrLastSlug (s : BuildState) (l : Line) : Line :=
  if hDepth l = 2 then slug (hTitle l) else s.lastSlug

/-- `counter` after processing a heading line (book.js lines 241-249):
the main title does not touch it, every other depth advances it. -/
def hrCounter (s : BuildState) (l : Line) : List JsNum :=
  if hDepth l = 1 then s.counter else counterAdvance s.counter (hDepth l)

/-- The `title_obj` built at book.js lines 252-270, with `lastSlug` and
`counter` already updated for this heading. -/
def mkTitle (ri : Line → Line) (depth : Nat) (title lastSlug : Line)
    (counter : List JsNum) : Title :=
  { text := ri title                       -- mdIt.renderInline(title)
    slug := slug title
    depth := depth
    section_slug := lastSlug
    is_main_title := depth == 1
    is_section := depth == 2
    is_subtitle := depth == 3
    is_max_subtitle := depth ≤ 3
    is_subsubtitle_or_more := 3 < depth
    depth_dec := depth - 1
    prettydepth := if depth = 1 then "0.".data else labelOf counter }

/-- The `title_obj` for a heading line. -/
def hrTitle (ri : Line → Line) (s : BuildState) (l : Line) : Title :=
  mkTitle ri (hDepth l) (hTitle l) (hrLastSlug s l) (hrCounter s l)

/-- The flush of the content buffer before a heading of depth ≥ 2
(book.js lines 202-216): render the buffered lines, and push a
`_CONTENT` record when the rendered HTML is non-blank. -/
def hrFlushed (render : Line → Line) (s : BuildState) : List Item :=
  let html := render (List.intercalate ['\n'] s.titleBuff)
  if jsTrim html = [] then s.sectionBuff else s.sectionBuff ++ [Item.content html]

/-- The state after processing a heading line that passed the placement
validation (book.js lines 200-281).  `inCodeBlock` is unchanged: a line
starting with `#` cannot start with a backtick, so the fence toggle does
not fire on heading lines. -/
def headingResult (render ri : Line → Line) (s : BuildState) (l : Line) :
    BuildState :=
  let depth := hDepth l
  -- depth ≥ 2 flushes the content buffer and resets it (lines 202-216)
  let flushed := if 2 ≤ depth then hrFlushed render s else s.sectionBuff
  -- a depth-2 heading that is not the first one closes the current
  -- section (lines 219-238)
  let closes := depth = 2 ∧ s.firstSection = false
  { summary := s.summary ++ [hrTitle ri s l]
    sections := if closes then s.sections ++ [⟨s.lastSlug, flushed⟩] else s.sections
    sectionBuff := (if closes then [] else flushed) ++
      (if depth = 1 then [] else [Item.title (hrTitle ri s l)])
    titleBuff := if 2 ≤ depth then [] else s.titleBuff
    mainTitle := if depth = 1 then some (hrTitle ri s l) else s.mainTitle
    lastSlug := hrLastSlug s l
    counter := hrCounter s l
    firstSection := if depth = 2 then false else s.firstSection
    inCodeBlock := s.inCodeBlock }

/-- One iteration of the `for` loop (book.js lines 163-296). -/
def step (render ri : Line → Line) (s : BuildState) (l : Line) :
    Except BuildError BuildState :=
  -- lines 165-167: toggle the fence state first
  let inCB := toggledCB s l
  -- lines 171: a heading line must start with '#' outside a code block
  if startsHash l && !inCB then
    -- lines 188-198: placement validation
    if s.summary = [] ∧ hDepth l ≠ 1 then .error .mainTitleNotFound
    else if s.summary ≠ [] ∧ hDepth l = 1 then .error .duplicateMainTitle
    else .ok (headingResult render ri s l)
  -- lines 284-289: content before the first section
  else if s.summary.length ≤ 1 then
    if jsTrim l = [] then .ok { s with inCodeBlock := inCB }
    else .error .contentOutsideSections
  -- lines 292-295: ordinary content is buffered
  else .ok { s with inCodeBlock := inCB, titleBuff := s.titleBuff ++ [l] }

/-- The loop over a list of lines; `error(...)` exits the process, so an
error aborts the remaining iterations. -/
def scanLines (render ri : Line → Line) : BuildState → List Line →
    Except BuildError BuildState
  | s, [] => .ok s
  | s, l :: ls =>
    match step render ri s l with
    | .error e => .error e
    | .ok s' => scanLines render ri s' ls

/-- The synthetic sentinel line appended at book.js line 163
(`.concat('## END OF FILE')`). -/
def endSentinel : Line := "## END OF FILE".data

/-- The whole segmentation engine (book.js lines 133-299): scan the
document plus the sentinel line, then pop the sentinel's summary entry
(`summary.pop()`, line 299; popping is `dropLast` since each heading
appends exactly one entry) and hand the model to the template. -/
def build (render ri : Line → Line) (doc : List Line) :
    Except BuildError DocumentModel :=
  match scanLines render ri initState (doc ++ [endSentinel]) with
  | .error e => .error e
  | .ok s => .ok { mainTitle := s.mainTitle, summary := s.summary.dropLast,
                   sections := s.sections }

/-- Number of depth-2 headings recorded in a summary. -/
def countD2 (l : List Title) : Nat := l.countP (fun t => t.depth == 2)

/-- The slug of the last depth-2 heading of a summary (the value the
engine keeps in `lastSlug`), or the empty string if there is none. -/
def lastD2 (l : List Title) : Line :=
  l.foldl (fun a t => if t.depth = 2 then t.slug else a) []

/-- Loop invariant relating the section accumulator, the `firstSection`
flag and the number of depth-2 headings pushed to the summary. -/
def Inv1 (s : BuildState) : Prop :=
  (s.firstSection = true ↔ countD2 s.summary = 0) ∧
  s.sections.length + (if s.firstSection = true then 0 else 1) =
    countD2 s.summary

/-- Loop invariant: the scan can only be inside a code block after an
opening fence line was accepted, which requires at least two summary
entries (otherwise the non-blank fence line is a structural error). -/
def InvFence (s : BuildState) : Prop :=
  s.inCodeBlock = true → 2 ≤ s.summary.length

/-- Loop invariant: `lastSlug` is the slug of the most recent depth-2
summary entry, and every summary entry's `section_slug` is the slug of
the last depth-2 entry at or before it (the empty string if none). -/
def InvSlugs (s : BuildState) : Prop :=
  s.lastSlug = lastD2 s.summary ∧
  ∀ i (h : i < s.summary.length),
    (s.summary.get ⟨i, h⟩).section_slug = lastD2 (s.summary.take (i + 1))

/-- Identity renderer, used to instantiate the external `markdown-it`
collaborators on concrete documents. -/
def idLine : Line → Line := fun l => l

/-- Extract the state of a successful scan (used in witnesses). -/
def scanOr (x : Except BuildError BuildState) : BuildState :=
  match x with
  | .ok s => s
  | .error _ => initState

/-- Extract the model of a successful build (used in witnesses). -/
def modelOr (x : Except BuildError DocumentModel) : DocumentModel :=
  match x with
  | .ok m => m
  | .error _ => ⟨none, [], []⟩

/-- A dummy heading object (used in witnesses). -/
def w8title : Title := mkTitle idLine 1 [] [] []

/-- A state inside a code block with two summary entries
(used in witnesses). -/
def w8state : BuildState :=
  { initState with inCodeBlock := true, summary := [w8title, w8title] }

/-! ### Basic facts about line classification -/

theorem ticks_data : "```".data = ['\x60', '\x60', '\x60'] := rfl

/-- A line starting with `#` does not start with a backtick fence. -/
theorem startsTicks_eq_false_of_startsHash {l : Line}
    (h : startsHash l = true) : startsTicks l = false := by
  cases l with
  | nil => simp [startsHash] at h
  | cons c t =>
    simp [startsHash] at h
    subst h
    simp [startsTicks, ticks_data]

/-- On a heading line the fence toggle does not fire. -/
theorem toggledCB_of_startsHash {s : BuildState} {l : Line}
    (h : startsHash l = true) : toggledCB s l = s.inCodeBlock := by
  simp [toggledCB, startsTicks_eq_false_of_startsHash h]

/-- A blank line (empty after `trim`) does not start with a fence. -/
theorem startsTicks_eq_false_of_blank {l : Line}
    (h : jsTrim l = []) : startsTicks l = false := by
  by_contra hne
  have ht : startsTicks l = true := by
    cases hb : startsTicks l
    · exact absurd hb hne
    · rfl
  have hcons : ∃ t, l = '\x60' :: t := by
    cases l with
    | nil => simp [startsTicks, ticks_data] at ht
    | cons c t =>
      refine ⟨t, ?_⟩
      cases t with
      | nil => simp [startsTicks, ticks_data] at ht
      | cons c' t' =>
        simp [startsTicks, ticks_data] at ht
        simp [ht.1]
  obtain ⟨t, rfl⟩ := hcons
  have hdw : List.dropWhile Char.isWhitespace ('\x60' :: t) = '\x60' :: t := by
    simp [List.dropWhile]
  rw [jsTrim, hdw, List.reverse_eq_nil_iff, List.dropWhile_eq_nil_iff] at h
  have := h '\x60' (by simp)
  simp at this

/-- A blank line does not start with `#`. -/
theorem startsHash_eq_false_of_blank {l : Line}
    (h : jsTrim l = []) : startsHash l = false := by
  by_contra hne
  have ht : startsHash l = true := by
    cases hb : startsHash l
    · exact absurd hb hne
    · rfl
  obtain ⟨t, rfl⟩ : ∃ t, l = '#' :: t := by
    cases l with
    | nil => simp [startsHash] at ht
    | cons c t => simp [startsHash] at ht; exact ⟨t, by simp [ht]⟩
  have hdw : List.dropWhile Char.isWhitespace ('#' :: t) = '#' :: t := by
    simp [List.dropWhile]
  rw [jsTrim, hdw, List.reverse_eq_nil_iff, List.dropWhile_eq_nil_iff] at h
  have := h '#' (by simp)
  simp at this

/-! ### Equations for the scan -/

theorem scanLines_nil (render ri : Line → Line) (s : BuildState) :
    scanLines render ri s [] = .ok s := rfl

theorem scanLines_cons_ok {render ri : Line → Line} {s s' : BuildState}
    {l : Line} (ls : List Line) (h : step render ri s l = .ok s') :
    scanLines render ri s (l :: ls) = scanLines render ri s' ls := by
  simp [scanLines, h]

theorem scanLines_cons_err {render ri : Line → Line} {s : BuildState}
    {l : Line} {e : BuildError} (ls : List Line)
    (h : step render ri s l = .error e) :
    scanLines render ri s (l :: ls) = .error e := by
  simp [scanLines, h]

theorem scanLines_append (render ri : Line → Line) (s : BuildState)
    (l₁ l₂ : List Line) :
    scanLines render ri s (l₁ ++ l₂) =
      match scanLines render ri s l₁ with
      | .error e => .error e
      | .ok s' => scanLines render ri s' l₂ := by
  induction l₁ generalizing s with
  | nil => simp [scanLines_nil]
  | cons l ls ih =>
    cases h : step render ri s l with
    | error e =>
      rw [List.cons_append, scanLines_cons_err _ h, scanLines_cons_err _ h]
    | ok s' =>
      rw [List.cons_append, scanLines_cons_ok _ h, scanLines_cons_ok _ h, ih]

/-- Exhaustive description of a successful loop iteration: either the
line was not classified as a heading (and was dropped when blank before
the first section, or buffered otherwise), or it was a heading that
passed the placement validation. -/
theorem step_ok_elim {render ri : Line → Line} {s s' : BuildState} {l : Line}
    (h : step render ri s l = .ok s') :
    (¬ (startsHash l = true ∧ toggledCB s l = false) ∧
      ((s.summary.length ≤ 1 ∧ jsTrim l = [] ∧
          s' = { s with inCodeBlock := toggledCB s l }) ∨
       (2 ≤ s.summary.length ∧
          s' = { s with inCodeBlock := toggledCB s l,
                        titleBuff := s.titleBuff ++ [l] }))) ∨
    (startsHash l = true ∧ toggledCB s l = false ∧
      ¬ (s.summary = [] ∧ hDepth l ≠ 1) ∧ ¬ (s.summary ≠ [] ∧ hDepth l = 1) ∧
      s' = headingResult render ri s l) := by
  unfold step at h
  by_cases h1 : startsHash l && !toggledCB s l
  · rw [if_pos h1] at h
    have h1' : startsHash l = true ∧ toggledCB s l = false := by
      constructor
      · exact (Bool.and_eq_true _ _ ▸ h1).1
      · have := (Bool.and_eq_true _ _ ▸ h1).2
        simpa using this
    by_cases h2 : s.summary = [] ∧ hDepth l ≠ 1
    · rw [if_pos h2] at h; exact absurd h (by simp)
    · rw [if_neg h2] at h
      by_cases h3 : s.summary ≠ [] ∧ hDepth l = 1
      · rw [if_pos h3] at h; exact absurd h (by simp)
      · rw [if_neg h3] at h
        right
        exact ⟨h1'.1, h1'.2, h2, h3, (Except.ok.inj h).symm⟩
  · rw [if_neg h1] at h
    left
    refine ⟨?_, ?_⟩
    · intro ⟨ha, hb⟩
      exact h1 (by simp [ha, hb])
    · by_cases h2 : s.summary.length ≤ 1
      · rw [if_pos h2] at h
        by_cases h3 : jsTrim l = []
        · rw [if_pos h3] at h
          exact Or.inl ⟨h2, h3, (Except.ok.inj h).symm⟩
        · rw [if_neg h3] at h; exact absurd h (by simp)
      · rw [if_neg h2] at h
        exact Or.inr ⟨by omega, (Except.ok.inj h).symm⟩

/-- A fence line does not start with `#`. -/
theorem startsHash_eq_false_of_startsTicks {l : Line}
    (h : startsTicks l = true) : startsHash l = false := by
  cases l with
  | nil => simp [startsTicks, ticks_data] at h
  | cons c t =>
    cases t with
    | nil => simp [startsTicks, ticks_data] at h
    | cons c' t' =>
      simp [startsTicks, ticks_data] at h
      simp [startsHash, h.1]

/-! ### Equations for single loop iterations -/

/-- A heading line that passes the placement validation. -/
theorem step_heading_ok {render ri : Line → Line} {s : BuildState} {l : Line}
    (hhash : startsHash l = true) (hcb : s.inCodeBlock = false)
    (h3 : ¬(s.summary = [] ∧ hDepth l ≠ 1))
    (h4 : ¬(s.summary ≠ [] ∧ hDepth l = 1)) :
    step render ri s l = .ok (headingResult render ri s l) := by
  unfold step
  rw [toggledCB_of_startsHash hhash, hcb]
  simp only [hhash, Bool.not_false, Bool.and_self, if_true]
  rw [if_neg h3, if_neg h4]

/-- A first heading of depth ≠ 1 aborts with the missing-title error. -/
theorem step_heading_err1 {render ri : Line → Line} {s : BuildState} {l : Line}
    (hhash : startsHash l = true) (hcb : s.inCodeBlock = false)
    (hsum : s.summary = []) (hd : hDepth l ≠ 1) :
    step render ri s l = .error .mainTitleNotFound := by
  unfold step
  rw [toggledCB_of_startsHash hhash, hcb]
  simp only [hhash, Bool.not_false, Bool.and_self, if_true]
  rw [if_pos ⟨hsum, hd⟩]

/-- A depth-1 heading after the first one aborts with the
duplicate-title error. -/
theorem step_heading_err2 {render ri : Line → Line} {s : BuildState} {l : Line}
    (hhash : startsHash l = true) (hcb : s.inCodeBlock = false)
    (hsum : s.summary ≠ []) (hd : hDepth l = 1) :
    step render ri s l = .error .duplicateMainTitle := by
  unfold step
  rw [toggledCB_of_startsHash hhash, hcb]
  simp only [hhash, Bool.not_false, Bool.and_self, if_true]
  rw [if_neg (by simp [hd]), if_pos ⟨hsum, hd⟩]

/-- A non-heading line arriving after at least two headings is buffered. -/
theorem step_content_push {render ri : Line → Line} {s : BuildState} {l : Line}
    (hnh : (startsHash l && !toggledCB s l) = false)
    (hlen : 2 ≤ s.summary.length) :
    step render ri s l =
      .ok { s with inCodeBlock := toggledCB s l,
                   titleBuff := s.titleBuff ++ [l] } := by
  unfold step
  simp only [hnh, Bool.false_eq_true, if_false]
  rw [if_neg (by omega)]

/-- A non-heading, non-blank line before the first section aborts with
the content-outside-sections error. -/
theorem step_content_err {render ri : Line → Line} {s : BuildState} {l : Line}
    (hnh : (startsHash l && !toggledCB s l) = false)
    (hlen : s.summary.length ≤ 1) (hblank : jsTrim l ≠ []) :
    step render ri s l = .error .contentOutsideSections := by
  unfold step
  simp only [hnh, Bool.false_eq_true, if_false]
  rw [if_pos hlen, if_neg hblank]

/-- A non-heading, blank line before the first section is dropped. -/
theorem step_content_blank {render ri : Line → Line} {s : BuildState} {l : Line}
    (hnh : (startsHash l && !toggledCB s l) = false)
    (hlen : s.summary.length ≤ 1) (hblank : jsTrim l = []) :
    step render ri s l = .ok s := by
  unfold step
  simp only [hnh, Bool.false_eq_true, if_false]
  rw [if_pos hlen, if_pos hblank]
  have : toggledCB s l = s.inCodeBlock := by
    simp [toggledCB, startsTicks_eq_false_of_blank hblank]
  rw [this]

/-! ### Slug generation (claim C6) -/

/-- A character accepted by the slug filter is fixed by the lowercasing
and the space-to-dash replacement. -/
theorem slugChar_fix {c : Char} (h : isSlugChar c = true) :
    Char.toLower c = c ∧ (if c = ' ' then '-' else c) = c := by
  have hn : (97 ≤ c.toNat ∧ c.toNat ≤ 122) ∨ (48 ≤ c.toNat ∧ c.toNat ≤ 57) ∨
      c = '-' ∨ c = '_' := by
    simpa [isSlugChar, or_assoc] using h
  have hrange : ¬(65 ≤ c.toNat ∧ c.toNat ≤ 90) := by
    rcases hn with ⟨h1, h2⟩ | ⟨h1, h2⟩ | h1 | h1
    · omega
    · omega
    · subst h1; decide
    · subst h1; decide
  have hspace : c ≠ ' ' := by
    intro hc
    subst hc
    exact absurd hn (by decide)
  constructor
  · show (if 65 ≤ c.toNat ∧ c.toNat ≤ 90 then Char.ofNat (c.toNat + 32) else c) = c
    rw [if_neg hrange]
  · rw [if_neg hspace]

/-- Mapping a function that fixes every element is the identity. -/
theorem map_fix {l : Line} {f : Char → Char} (h : ∀ c ∈ l, f c = c) :
    l.map f = l := by
  rw [List.map_congr_left h]
  exact List.map_id' l

/-- Every character of a slug is accepted by the slug filter. -/
theorem mem_slug_isSlugChar {t : Line} {c : Char} (h : c ∈ slug t) :
    isSlugChar c = true := (List.mem_filter.mp h).2

/-- The slug function is idempotent. -/
theorem slug_idem (t : Line) : slug (slug t) = slug t := by
  have hfix : ∀ c ∈ slug t, isSlugChar c = true := fun c hc =>
    mem_slug_isSlugChar hc
  have h1 : (slug t).map Char.toLower = slug t :=
    map_fix (fun c hc => (slugChar_fix (hfix c hc)).1)
  have h2 : (slug t).map (fun c => if c = ' ' then '-' else c) = slug t :=
    map_fix (fun c hc => (slugChar_fix (hfix c hc)).2)
  show (((slug t).map Char.toLower).map _).filter _ = slug t
  rw [h1, h2, List.filter_eq_self.mpr hfix]

/-! ### Projections of a heading iteration -/

theorem headingResult_summary (render ri : Line → Line) (s : BuildState)
    (l : Line) :
    (headingResult render ri s l).summary = s.summary ++ [hrTitle ri s l] := rfl

theorem headingResult_sections (render ri : Line → Line) (s : BuildState)
    (l : Line) :
    (headingResult render ri s l).sections =
      if hDepth l = 2 ∧ s.firstSection = false then
        s.sections ++ [⟨s.lastSlug,
          if 2 ≤ hDepth l then hrFlushed render s else s.sectionBuff⟩]
      else s.sections := rfl

theorem headingResult_firstSection (render ri : Line → Line) (s : BuildState)
    (l : Line) :
    (headingResult render ri s l).firstSection =
      if hDepth l = 2 then false else s.firstSection := rfl

theorem headingResult_lastSlug (render ri : Line → Line) (s : BuildState)
    (l : Line) :
    (headingResult render ri s l).lastSlug = hrLastSlug s l := rfl

theorem headingResult_inCodeBlock (render ri : Line → Line) (s : BuildState)
    (l : Line) :
    (headingResult render ri s l).inCodeBlock = s.inCodeBlock := rfl

theorem hrTitle_depth (ri : Line → Line) (s : BuildState) (l : Line) :
    (hrTitle ri s l).depth = hDepth l := rfl

theorem hrTitle_slug_eq (ri : Line → Line) (s : BuildState) (l : Line) :
    (hrTitle ri s l).slug = slug (hTitle l) := rfl

theorem hrTitle_section_slug (ri : Line → Line) (s : BuildState) (l : Line) :
    (hrTitle ri s l).section_slug = hrLastSlug s l := rfl

theorem hrTitle_text (ri : Line → Line) (s : BuildState) (l : Line) :
    (hrTitle ri s l).text = ri (hTitle l) := rfl

/-! ### Generic scan machinery -/

/-- A property preserved by every successful iteration is preserved by
the whole scan. -/
theorem scan_preserves {render ri : Line → Line} {P : BuildState → Prop}
    (hstep : ∀ s l s', step render ri s l = .ok s' → P s → P s') :
    ∀ (doc : List Line) (s₀ s : BuildState),
      scanLines render ri s₀ doc = .ok s → P s₀ → P s := by
  intro doc
  induction doc with
  | nil =>
    intro s₀ s h hp
    rw [scanLines_nil] at h
    cases h
    exact hp
  | cons l ls ih =>
    intro s₀ s h hp
    cases hstep' : step render ri s₀ l with
    | error e => rw [scanLines_cons_err _ hstep'] at h; cases h
    | ok s₁ =>
      rw [scanLines_cons_ok _ hstep'] at h
      exact ih s₁ s h (hstep _ _ _ hstep' hp)

/-- The fence state after one successful iteration: it flips exactly on
fence lines. -/
theorem step_inCodeBlock {render ri : Line → Line} {s s' : BuildState}
    {l : Line} (h : step render ri s l = .ok s') :
    s'.inCodeBlock = Bool.xor s.inCodeBlock (startsTicks l) := by
  rcases step_ok_elim h with ⟨_, hc⟩ | ⟨h1, _, _, _, rfl⟩
  · have htog : toggledCB s l = Bool.xor s.inCodeBlock (startsTicks l) := by
      unfold toggledCB
      cases ht : startsTicks l <;> simp [ht]
    rcases hc with ⟨_, _, rfl⟩ | ⟨_, rfl⟩ <;> exact htog
  · rw [headingResult_inCodeBlock, startsTicks_eq_false_of_startsHash h1]
    simp

theorem parity_succ (n : Nat) :
    decide ((n + 1) % 2 = 1) = !decide (n % 2 = 1) := by
  by_cases h : n % 2 = 1
  · have h2 : (n + 1) % 2 = 0 := by omega
    simp [h, h2]
  · have h2 : (n + 1) % 2 = 1 := by omega
    simp [h, h2]

/-- The fence state after a successful scan is the initial state XORed
with the parity of the number of fence lines. -/
theorem scan_parity {render ri : Line → Line} :
    ∀ (doc : List Line) (s₀ s : BuildState),
      scanLines render ri s₀ doc = .ok s →
      s.inCodeBlock =
        Bool.xor s₀.inCodeBlock (decide (doc.countP startsTicks % 2 = 1)) := by
  intro doc
  induction doc with
  | nil =>
    intro s₀ s h
    rw [scanLines_nil] at h
    cases h
    simp
  | cons l ls ih =>
    intro s₀ s h
    cases hstep : step render ri s₀ l with
    | error e => rw [scanLines_cons_err _ hstep] at h; cases h
    | ok s₁ =>
      rw [scanLines_cons_ok _ hstep] at h
      rw [ih s₁ s h, step_inCodeBlock hstep, List.countP_cons]
      cases ht : startsTicks l with
      | false => simp
      | true =>
        simp [ht, parity_succ]

/-! ### Counting depth-2 headings (claim C1) -/

theorem countD2_append (l : List Title) (t : Title) :
    countD2 (l ++ [t]) = countD2 l + (if t.depth = 2 then 1 else 0) := by
  simp only [countD2, List.countP_append, List.countP_cons, List.countP_nil]
  by_cases h : t.depth = 2 <;> simp [h]

theorem inv1_init : Inv1 initState := by
  constructor <;> simp [initState, countD2]

theorem inv1_step {render ri : Line → Line} {s s' : BuildState} {l : Line}
    (h : step render ri s l = .ok s') (hs : Inv1 s) : Inv1 s' := by
  rcases step_ok_elim h with ⟨_, hc⟩ | ⟨_, _, _, _, rfl⟩
  · rcases hc with ⟨_, _, rfl⟩ | ⟨_, rfl⟩ <;> exact hs
  · obtain ⟨hiff, hcount⟩ := hs
    have hc0 : s.firstSection = true → countD2 s.summary = 0 := hiff.mp
    have hc1 : countD2 s.summary = 0 → s.firstSection = true := hiff.mpr
    unfold Inv1
    rw [headingResult_summary, headingResult_sections, headingResult_firstSection,
        countD2_append, hrTitle_depth]
    by_cases hd2 : hDepth l = 2 <;> cases hfs : s.firstSection <;>
      rw [hfs] at hcount <;>
      simp only [hfs, forall_true_left, false_implies, true_implies,
        Bool.false_eq_true, false_iff, true_iff, iff_true, iff_false] at hc0 hc1 <;>
      constructor <;>
      simp [hd2, hfs] at hcount ⊢ <;>
      omega

/-! ### The fence invariant (claim C10) -/

theorem invFence_init : InvFence initState := by
  intro h
  simp [initState] at h

theorem invFence_step {render ri : Line → Line} {s s' : BuildState} {l : Line}
    (h : step render ri s l = .ok s') (hs : InvFence s) : InvFence s' := by
  rcases step_ok_elim h with ⟨_, hc⟩ | ⟨h1, h2, _, _, rfl⟩
  · rcases hc with ⟨hlen, hb, rfl⟩ | ⟨hlen, rfl⟩
    · intro hcb
      have htog : toggledCB s l = s.inCodeBlock := by
        simp [toggledCB, startsTicks_eq_false_of_blank hb]
      exact hs (htog ▸ hcb)
    · intro _
      exact hlen
  · intro hcb
    rw [headingResult_inCodeBlock] at hcb
    rw [toggledCB_of_startsHash h1] at h2
    rw [h2] at hcb
    cases hcb

/-! ### The section-slug invariant (claim C9) -/

theorem lastD2_append (l : List Title) (t : Title) :
    lastD2 (l ++ [t]) = if t.depth = 2 then t.slug else lastD2 l := by
  simp [lastD2, List.foldl_append]

theorem invSlugs_init : InvSlugs initState := by
  constructor
  · rfl
  · intro i h
    simp [initState] at h

theorem invSlugs_step {render ri : Line → Line} {s s' : BuildState} {l : Line}
    (h : step render ri s l = .ok s') (hs : InvSlugs s) : InvSlugs s' := by
  rcases step_ok_elim h with ⟨_, hc⟩ | ⟨_, _, _, _, rfl⟩
  · rcases hc with ⟨_, _, rfl⟩ | ⟨_, rfl⟩ <;> exact hs
  · obtain ⟨hlast, hidx⟩ := hs
    constructor
    · rw [headingResult_lastSlug, headingResult_summary, lastD2_append,
          hrTitle_depth, hrTitle_slug_eq]
      unfold hrLastSlug
      by_cases hd2 : hDepth l = 2
      · rw [if_pos hd2, if_pos hd2]
      · rw [if_neg hd2, if_neg hd2, hlast]
    · rw [headingResult_summary]
      intro i hi
      rw [List.length_append, List.length_singleton] at hi
      by_cases hilt : i < s.summary.length
      · have hget : (s.summary ++ [hrTitle ri s l]).get ⟨i, by simp; omega⟩ =
            s.summary.get ⟨i, hilt⟩ := by
          simp only [List.get_eq_getElem]
          exact List.getElem_append_left hilt
        rw [hget, List.take_append_of_le_length (by omega)]
        exact hidx i hilt
      · have hieq : i = s.summary.length := by omega
        subst hieq
        have hget : (s.summary ++ [hrTitle ri s l]).get
            ⟨s.summary.length, by simp⟩ = hrTitle ri s l := by
          simp only [List.get_eq_getElem]
          exact List.getElem_concat_length _ _ _ rfl _
        rw [hget, List.take_of_length_le (by simp), hrTitle_section_slug,
            lastD2_append, hrTitle_depth, hrTitle_slug_eq]
        unfold hrLastSlug
        by_cases hd2 : hDepth l = 2
        · rw [if_pos hd2, if_pos hd2]
        · rw [if_neg hd2, if_neg hd2, hlast]

/-! ### Further helpers for the claim proofs -/

theorem countP_replicate {α : Type} (p : α → Bool) (n : Nat) (a : α) :
    (List.replicate n a).countP p = if p a then n else 0 := by
  induction n with
  | zero => simp
  | succ k ih =>
    rw [List.replicate_succ, List.countP_cons, ih]
    by_cases h : p a <;> simp [h]

theorem scanLines_append_ok {render ri : Line → Line} {s₀ s : BuildState}
    (l₁ l₂ : List Line) (h : scanLines render ri s₀ l₁ = .ok s) :
    scanLines render ri s₀ (l₁ ++ l₂) = scanLines render ri s l₂ := by
  rw [scanLines_append, h]

theorem scanLines_append_err {render ri : Line → Line} {s₀ : BuildState}
    {e : BuildError} (l₁ l₂ : List Line)
    (h : scanLines render ri s₀ l₁ = .error e) :
    scanLines render ri s₀ (l₁ ++ l₂) = .error e := by
  rw [scanLines_append, h]

theorem build_eq_scan (render ri : Line → Line) (doc : List Line) :
    build render ri doc =
      match scanLines render ri initState (doc ++ [endSentinel]) with
      | .error e => .error e
      | .ok s => .ok ⟨s.mainTitle, s.summary.dropLast, s.sections⟩ := rfl

/-- Processing the main title (depth 1): nothing is flushed, no section
is closed, the counter is untouched; the heading is recorded in the
summary and as the main title only. -/
theorem headingResult_depth1 {render ri : Line → Line} {s : BuildState}
    {l : Line} (hd : hDepth l = 1) :
    headingResult render ri s l =
      { s with summary := s.summary ++ [hrTitle ri s l],
               mainTitle := some (hrTitle ri s l) } := by
  simp [headingResult, hrLastSlug, hrCounter, hd]

/-- The main title's numbering label is the fixed literal `0.`. -/
theorem prettydepth_depth1 (ri : Line → Line) (s : BuildState) {l : Line}
    (hd : hDepth l = 1) : (hrTitle ri s l).prettydepth = "0.".data := by
  simp [hrTitle, mkTitle, hd]

/-- The numbering label of a non-title heading is the label of the
advanced counter. -/
theorem prettydepth_ne1 (ri : Line → Line) (s : BuildState) {l : Line}
    (hd : hDepth l ≠ 1) :
    (hrTitle ri s l).prettydepth =
      labelOf (counterAdvance s.counter (hDepth l)) := by
  simp [hrTitle, mkTitle, hrCounter, hd]

/-- C6: slug generation is a deterministic, total, idempotent pure
function of the heading text: applying it twice equals applying it once,
the empty text yields the empty slug, and `slug "Hello World!"` is
`"hello-world"` (lowercase, spaces to dashes, characters outside
`[a-z0-9-_]` stripped).  Determinism and totality are inherent: `slug`
is a total Lean function. -/
theorem C6_slug_idempotent :
    (∀ t : Line, slug (slug t) = slug t) ∧
    slug ([] : Line) = [] ∧
    slug ("Hello World!".data) = "hello-world".data :=
  ⟨slug_idem, rfl, by decide⟩

/-- C2 (amended): for a heading of depth `d` with `2 ≤ d ≤ 4` (the
indices of the five-slot counter array holding numbers), `advance`
increments `counter[d]` by one, keeps every lower index, and resets
every higher index to 0; a depth-1 heading mutates no counter and gets
the literal label `0.`; a deeper heading's label is the label of the
advanced counter (dot-joined positive entries plus a trailing dot,
`labelOf`); and the document with headings at depths [1,2,3,2,3,3]
produces the labels 0., 1., 1.1., 2., 2.1., 2.2. in order.  (For
`d ≥ 5` the claim fails: `counter[5]++` yields `NaN`, see the
counterexample.) -/
theorem C2_numbering_counter :
    (∀ a b x y z : Nat,
      counterAdvance [some a, some b, some x, some y, some z] 2 =
        [some a, some b, some (x + 1), some 0, some 0] ∧
      counterAdvance [some a, some b, some x, some y, some z] 3 =
        [some a, some b, some x, some (y + 1), some 0] ∧
      counterAdvance [some a, some b, some x, some y, some z] 4 =
        [some a, some b, some x, some y, some (z + 1)]) ∧
    (∀ (render ri : Line → Line) (s : BuildState) (l : Line),
      s.inCodeBlock = false → startsHash l = true → hDepth l = 1 →
      s.summary = [] →
      step render ri s l = .ok { s with
        summary := s.summary ++ [hrTitle ri s l],
        mainTitle := some (hrTitle ri s l) } ∧
      (hrTitle ri s l).prettydepth = "0.".data) ∧
    (∀ (ri : Line → Line) (s : BuildState) (l : Line), hDepth l ≠ 1 →
      (hrTitle ri s l).prettydepth =
        labelOf (counterAdvance s.counter (hDepth l))) ∧
    (build idLine idLine
        ["# T".data, "## A".data, "### B".data, "## C".data, "### D".data,
         "### E".data]).map (fun m => m.summary.map Title.prettydepth) =
      .ok ["0.".data, "1.".data, "1.1.".data, "2.".data, "2.1.".data,
           "2.2.".data] := by
  refine ⟨fun a b x y z => ⟨rfl, rfl, rfl⟩, ?_,
    fun ri s l hd => prettydepth_ne1 ri s hd, by decide⟩
  intro render ri s l hcb hhash hd hsum
  refine ⟨?_, prettydepth_depth1 ri s hd⟩
  rw [step_heading_ok hhash hcb (by simp [hd]) (by simp [hsum]),
      headingResult_depth1 hd]

/-- C2 counterexample: on a depth-5 heading the engine executes
`counter[5]++` on the five-slot array, producing `NaN` (here `none`),
not an increment by 1; consequently for the document with heading depths
[1, 2, 5] the third label is `1.` whereas the claim's counter semantics
would give `1.1.`. -/
theorem C2_depth5_counterexample :
    counterAdvance [some 0, some 0, some 1, some 0, some 0] 5 =
      [some 0, some 0, some 1, some 0, some 0, none] ∧
    (counterAdvance [some 0, some 0, some 1, some 0, some 0] 5).get? 5 ≠
      some (some 1) ∧
    (build idLine idLine ["# T".data, "## A".data, "##### X".data]).map
        (fun m => m.summary.map Title.prettydepth) =
      .ok ["0.".data, "1.".data, "1.".data] ∧
    ("1.".data : Line) ≠ "1.1.".data := by decide

theorem C2_numbering_counter_witness :
    step idLine idLine initState ("# T".data) =
      .ok { initState with
        summary := initState.summary ++ [hrTitle idLine initState ("# T".data)],
        mainTitle := some (hrTitle idLine initState ("# T".data)) } ∧
    (hrTitle idLine initState ("## A".data)).prettydepth =
      labelOf (counterAdvance initState.counter (hDepth ("## A".data))) :=
  ⟨(C2_numbering_counter.2.1 idLine idLine initState ("# T".data) rfl (by decide)
      (by decide) rfl).1,
   C2_numbering_counter.2.2.1 idLine initState ("## A".data) (by decide)⟩

/-- C3 (amended): every line starting with `#` outside a code fence is
matched by the heading regexp `/^(#+) *(.*)$/` — the space run may be
empty — so, unless the placement validation aborts the build, it always
produces exactly one heading entry, whose depth is the length of the
leading `#` run and whose text is the remainder after the optional
spaces. -/
theorem C3_hash_always_heading (render ri : Line → Line) (s : BuildState)
    (l : Line) (hcb : s.inCodeBlock = false) (hhash : startsHash l = true)
    (h3 : ¬(s.summary = [] ∧ hDepth l ≠ 1))
    (h4 : ¬(s.summary ≠ [] ∧ hDepth l = 1)) :
    step render ri s l = .ok (headingResult render ri s l) ∧
    (headingResult render ri s l).summary = s.summary ++ [hrTitle ri s l] ∧
    (hrTitle ri s l).depth = hDepth l ∧
    (hrTitle ri s l).text = ri (hTitle l) ∧
    (hrTitle ri s l).slug = slug (hTitle l) :=
  ⟨step_heading_ok hhash hcb h3 h4, rfl, rfl, rfl, rfl⟩

/-- C3 counterexample: the line `#foo` — a `#` run followed directly by
text, with no space — is accepted as a valid depth-1 heading with text
`foo`; the claim predicts that no heading entry is produced. -/
theorem C3_hash_no_space_counterexample :
    (build idLine idLine [("#foo".data)]).map
        (fun m => m.summary.map (fun t => (t.depth, t.text))) =
      .ok [(1, "foo".data)] := by decide

theorem C3_hash_always_heading_witness :
    step idLine idLine initState ("#foo".data) =
      .ok (headingResult idLine idLine initState ("#foo".data)) ∧
    (headingResult idLine idLine initState ("#foo".data)).summary =
      initState.summary ++ [hrTitle idLine initState ("#foo".data)] ∧
    (hrTitle idLine initState ("#foo".data)).depth = hDepth ("#foo".data) ∧
    (hrTitle idLine initState ("#foo".data)).text = idLine (hTitle ("#foo".data)) ∧
    (hrTitle idLine initState ("#foo".data)).slug = slug (hTitle ("#foo".data)) :=
  C3_hash_always_heading idLine idLine initState ("#foo".data) rfl (by decide)
    (by decide) (by decide)

/-- C4: the engine enforces the exactly-one-leading-title invariant.  If
the first heading encountered (empty summary) has depth ≠ 1 the build
aborts with the missing-title error; if a depth-1 heading is seen while
the summary is non-empty the build aborts with the duplicate-title
error.  Both are fatal: the result is `.error` and no document model
(hence no output file) is produced. -/
theorem C4_title_errors (render ri : Line → Line) (pre rest : List Line)
    (l : Line) (s : BuildState)
    (hpre : scanLines render ri initState pre = .ok s)
    (hcb : s.inCodeBlock = false) (hhash : startsHash l = true) :
    (s.summary = [] → hDepth l ≠ 1 →
      build render ri (pre ++ l :: rest) = .error .mainTitleNotFound) ∧
    (s.summary ≠ [] → hDepth l = 1 →
      build render ri (pre ++ l :: rest) = .error .duplicateMainTitle) := by
  have hassoc : (pre ++ l :: rest) ++ [endSentinel] =
      pre ++ (l :: (rest ++ [endSentinel])) := by simp
  constructor
  · intro hsum hd
    rw [build_eq_scan, hassoc, scanLines_append_ok _ _ hpre,
        scanLines_cons_err _ (step_heading_err1 hhash hcb hsum hd)]
  · intro hsum hd
    rw [build_eq_scan, hassoc, scanLines_append_ok _ _ hpre,
        scanLines_cons_err _ (step_heading_err2 hhash hcb hsum hd)]

theorem C4_title_errors_witness :
    build idLine idLine ["## A".data] = .error .mainTitleNotFound ∧
    build idLine idLine ["# A".data, "# B".data] = .error .duplicateMainTitle := by
  constructor
  · exact (C4_title_errors idLine idLine [] [] ("## A".data) initState rfl rfl
      (by decide)).1 rfl (by decide)
  · exact (C4_title_errors idLine idLine ["# A".data] []
      ("# B".data) (scanOr (scanLines idLine idLine initState ["# A".data]))
      (by decide) (by decide) (by decide)).2 (by decide) (by decide)

/-- C7: while the summary has at most one entry (before the first
section), a line not classified as a heading is a fatal structural
error when non-blank, and is accepted (dropped, state unchanged) when
blank. -/
theorem C7_content_outside (render ri : Line → Line) (s : BuildState)
    (l : Line) (hlen : s.summary.length ≤ 1)
    (hnh : (startsHash l && !toggledCB s l) = false) :
    (jsTrim l ≠ [] → step render ri s l = .error .contentOutsideSections) ∧
    (jsTrim l = [] → step render ri s l = .ok s) :=
  ⟨fun hb => step_content_err hnh hlen hb,
   fun hb => step_content_blank hnh hlen hb⟩

theorem C7_content_outside_witness :
    step idLine idLine initState ("hello".data) =
      .error .contentOutsideSections ∧
    step idLine idLine initState ("  ".data) = .ok initState :=
  ⟨(C7_content_outside idLine idLine initState ("hello".data) (by decide)
      (by decide)).1 (by decide),
   (C7_content_outside idLine idLine initState ("  ".data) (by decide)
      (by decide)).2 (by decide)⟩

/-- C8: a line starting with `#` inside a fenced code block is never
classified as a heading — it is either buffered as ordinary content or
(before the first section) a structural error, and in no case does it
add a summary entry or close a section; a fence line itself is likewise
never treated as a heading: it only toggles the fence state and is
buffered as content. -/
theorem C8_fence_no_heading (render ri : Line → Line) (s : BuildState)
    (l : Line) :
    (s.inCodeBlock = true → startsHash l = true →
      step render ri s l =
        if s.summary.length ≤ 1 then .error .contentOutsideSections
        else .ok { s with titleBuff := s.titleBuff ++ [l] }) ∧
    (startsTicks l = true →
      step render ri s l =
        if s.summary.length ≤ 1 then .error .contentOutsideSections
        else .ok { s with inCodeBlock := !s.inCodeBlock,
                          titleBuff := s.titleBuff ++ [l] }) := by
  constructor
  · intro hcb hhash
    have htog : toggledCB s l = s.inCodeBlock := toggledCB_of_startsHash hhash
    have hguard : (startsHash l && !toggledCB s l) = false := by
      rw [htog, hcb, hhash]
      rfl
    have hblank : jsTrim l ≠ [] := by
      intro hb
      rw [startsHash_eq_false_of_blank hb] at hhash
      cases hhash
    by_cases hle : s.summary.length ≤ 1
    · rw [if_pos hle]
      exact step_content_err hguard hle hblank
    · rw [if_neg hle]
      have hp := @step_content_push render ri s l hguard (by omega)
      rw [htog] at hp
      exact hp
  · intro hticks
    have hhashf : startsHash l = false := startsHash_eq_false_of_startsTicks hticks
    have hguard : (startsHash l && !toggledCB s l) = false := by
      rw [hhashf]
      rfl
    have htog : toggledCB s l = !s.inCodeBlock := by
      simp [toggledCB, hticks]
    have hblank : jsTrim l ≠ [] := by
      intro hb
      rw [startsTicks_eq_false_of_blank hb] at hticks
      cases hticks
    by_cases hle : s.summary.length ≤ 1
    · rw [if_pos hle]
      exact step_content_err hguard hle hblank
    · rw [if_neg hle]
      have hp := @step_content_push render ri s l hguard (by omega)
      rw [htog] at hp
      exact hp

theorem C8_fence_no_heading_witness :
    step idLine idLine w8state ("# x".data) =
      (if w8state.summary.length ≤ 1 then .error .contentOutsideSections
       else .ok { w8state with
                  titleBuff := w8state.titleBuff ++ [("# x".data)] }) ∧
    step idLine idLine w8state ("```".data) =
      (if w8state.summary.length ≤ 1 then .error .contentOutsideSections
       else .ok { w8state with
                  inCodeBlock := !w8state.inCodeBlock,
                  titleBuff := w8state.titleBuff ++ [("```".data)] }) :=
  ⟨(C8_fence_no_heading idLine idLine w8state ("# x".data)).1 rfl (by decide),
   (C8_fence_no_heading idLine idLine w8state ("```".data)).2 (by decide)⟩

/-- C1: for every document that scans without error, whose classified
heading sequence is exactly one depth-1 heading followed by N depth-2
headings, and whose code fences are balanced (an even number of fence
lines), the build succeeds and returns a model with `sections.length = N`:
each depth-2 heading opens a section closed by the next one, and the
synthetic sentinel closes the last. -/
theorem C1_sections_count (render ri : Line → Line) (doc : List Line) (N : Nat)
    (hsum : (scanLines render ri initState doc).map
        (fun s => s.summary.map Title.depth) = .ok (1 :: List.replicate N 2))
    (hfence : doc.countP startsTicks % 2 = 0) :
    ∃ m, build render ri doc = .ok m ∧ m.sections.length = N := by
  cases hscan : scanLines render ri initState doc with
  | error e =>
    rw [hscan] at hsum
    simp [Except.map] at hsum
  | ok s =>
    rw [hscan] at hsum
    have hdep : s.summary.map Title.depth = 1 :: List.replicate N 2 := by
      simpa [Except.map] using hsum
    have hinv : Inv1 s := scan_preserves
      (fun _ _ _ hh hp => inv1_step hh hp) doc initState s hscan inv1_init
    have hnot1 : ¬ (doc.countP startsTicks % 2 = 1) := by omega
    have hcb : s.inCodeBlock = false := by
      rw [scan_parity doc initState s hscan]
      simp [initState, hnot1]
    have hsumne : s.summary ≠ [] := by
      intro he
      rw [he] at hdep
      simp at hdep
    have hcount : countD2 s.summary = N := by
      have hc : countD2 s.summary =
          (s.summary.map Title.depth).countP (fun d => d == 2) := by
        rw [List.countP_map]
        rfl
      rw [hc, hdep, List.countP_cons, countP_replicate]
      simp
    have hd2 : hDepth endSentinel = 2 := rfl
    have hsent : step render ri s endSentinel =
        .ok (headingResult render ri s endSentinel) :=
      step_heading_ok (by decide) hcb (fun hh => hsumne hh.1)
        (fun hh => absurd hh.2 (by decide))
    refine ⟨⟨(headingResult render ri s endSentinel).mainTitle,
             (headingResult render ri s endSentinel).summary.dropLast,
             (headingResult render ri s endSentinel).sections⟩, ?_, ?_⟩
    · rw [build_eq_scan, scanLines_append_ok _ _ hscan,
          scanLines_cons_ok _ hsent, scanLines_nil]
    · show (headingResult render ri s endSentinel).sections.length = N
      rw [headingResult_sections]
      obtain ⟨hiff, hcnt⟩ := hinv
      cases hfs : s.firstSection with
      | true =>
        have h0 : countD2 s.summary = 0 := hiff.mp hfs
        rw [if_neg (by simp [hfs])]
        rw [hfs] at hcnt
        simp at hcnt
        omega
      | false =>
        rw [if_pos ⟨hd2, rfl⟩]
        rw [hfs] at hcnt
        simp at hcnt
        simp
        omega

theorem C1_sections_count_witness :
    ∃ m, build idLine idLine
        ["# T".data, "## A".data, "hello".data, "## B".data] = .ok m ∧
      m.sections.length = 2 :=
  C1_sections_count idLine idLine
    ["# T".data, "## A".data, "hello".data, "## B".data] 2
    (by decide) (by decide)

/-- C5: the synthetic sentinel `## END OF FILE` never appears in the
returned model.  Whenever the build succeeds, the returned summary and
sections are assembled exclusively from the state reached by scanning
the document's own lines: the summary is that state's summary (the
sentinel's own entry having been popped) or a prefix of it, and the
sections are that state's sections, possibly extended by the section the
sentinel closes — whose items are the state's buffered items and flushed
content only, never the sentinel's heading object. -/
theorem C5_sentinel_absent (render ri : Line → Line) (doc : List Line)
    (m : DocumentModel) (h : build render ri doc = .ok m) :
    ∃ s, scanLines render ri initState doc = .ok s ∧
      (m.summary = s.summary ∨ m.summary = s.summary.dropLast) ∧
      (m.sections = s.sections ∨
        ∃ extra, (extra = [] ∨ extra = [Item.content
            (render (List.intercalate ['\n'] s.titleBuff))]) ∧
          m.sections = s.sections ++
            [⟨s.lastSlug, s.sectionBuff ++ extra⟩]) := by
  cases hscan : scanLines render ri initState doc with
  | error e =>
    rw [build_eq_scan, scanLines_append_err _ _ hscan] at h
    simp at h
  | ok s =>
    refine ⟨s, rfl, ?_⟩
    cases hstep : step render ri s endSentinel with
    | error e =>
      rw [build_eq_scan, scanLines_append_ok _ _ hscan,
          scanLines_cons_err _ hstep] at h
      simp at h
    | ok s' =>
      rw [build_eq_scan, scanLines_append_ok _ _ hscan,
          scanLines_cons_ok _ hstep, scanLines_nil] at h
      have hm : m = ⟨s'.mainTitle, s'.summary.dropLast, s'.sections⟩ :=
        (Except.ok.inj h).symm
      subst hm
      rcases step_ok_elim hstep with ⟨_, hc⟩ | ⟨_, _, _, _, rfl⟩
      · rcases hc with ⟨_, hb, rfl⟩ | ⟨_, rfl⟩
        · exact absurd hb (by decide)
        · exact ⟨Or.inr rfl, Or.inl rfl⟩
      · constructor
        · left
          show (headingResult render ri s endSentinel).summary.dropLast = s.summary
          rw [headingResult_summary, List.dropLast_concat]
        · rw [headingResult_sections]
          have hd2 : hDepth endSentinel = 2 := rfl
          cases hfs : s.firstSection with
          | true =>
            rw [if_neg (by simp [hfs])]
            exact Or.inl rfl
          | false =>
            rw [if_pos ⟨hd2, rfl⟩, if_pos (by rw [hd2])]
            right
            unfold hrFlushed
            by_cases hjt :
                jsTrim (render (List.intercalate ['\n'] s.titleBuff)) = []
            · exact ⟨[], Or.inl rfl, by rw [if_pos hjt]; simp⟩
            · exact ⟨[Item.content
                  (render (List.intercalate ['\n'] s.titleBuff))],
                Or.inr rfl, by rw [if_neg hjt]⟩

theorem C5_sentinel_absent_witness :
    ∃ s, scanLines idLine idLine initState
        ["# T".data, "## A".data, "x".data] = .ok s ∧
      ((modelOr (build idLine idLine ["# T".data, "## A".data, "x".data])).summary
          = s.summary ∨
        (modelOr (build idLine idLine
            ["# T".data, "## A".data, "x".data])).summary = s.summary.dropLast) ∧
      ((modelOr (build idLine idLine
            ["# T".data, "## A".data, "x".data])).sections = s.sections ∨
        ∃ extra, (extra = [] ∨ extra = [Item.content
            (idLine (List.intercalate ['\n'] s.titleBuff))]) ∧
          (modelOr (build idLine idLine
              ["# T".data, "## A".data, "x".data])).sections =
            s.sections ++ [⟨s.lastSlug, s.sectionBuff ++ extra⟩]) :=
  C5_sentinel_absent idLine idLine ["# T".data, "## A".data, "x".data]
    (modelOr (build idLine idLine ["# T".data, "## A".data, "x".data]))
    (by decide)

/-- C9: in every model the engine produces, each summary entry's
`section_slug` equals the slug of the most recent depth-2 entry at or
before it (`lastD2` of the prefix ending at the entry), the empty
string when there is none.  In particular each depth-2 heading's
`section_slug` is its own slug, each deeper heading inherits the slug
of the most recent preceding depth-2 heading, and the main title (first
entry, depth 1) gets the empty string — the initial `lastSlug`. -/
theorem C9_section_slug (render ri : Line → Line) (doc : List Line)
    (m : DocumentModel) (h : build render ri doc = .ok m) :
    (∀ i (hi : i < m.summary.length),
      (m.summary.get ⟨i, hi⟩).section_slug =
        lastD2 (m.summary.take (i + 1))) ∧
    (∀ i (hi : i < m.summary.length),
      (m.summary.get ⟨i, hi⟩).depth = 2 →
      (m.summary.get ⟨i, hi⟩).section_slug = (m.summary.get ⟨i, hi⟩).slug) ∧
    (∀ hi : 0 < m.summary.length,
      (m.summary.get ⟨0, hi⟩).depth ≠ 2 →
      (m.summary.get ⟨0, hi⟩).section_slug = []) := by
  have hmain : ∀ i (hi : i < m.summary.length),
      (m.summary.get ⟨i, hi⟩).section_slug =
        lastD2 (m.summary.take (i + 1)) := by
    cases hscan : scanLines render ri initState (doc ++ [endSentinel]) with
    | error e =>
      rw [build_eq_scan, hscan] at h
      simp at h
    | ok s =>
      rw [build_eq_scan, hscan] at h
      have hm : m = ⟨s.mainTitle, s.summary.dropLast, s.sections⟩ :=
        (Except.ok.inj h).symm
      subst hm
      have hinv : InvSlugs s := scan_preserves
        (fun _ _ _ hh hp => invSlugs_step hh hp) _ initState s hscan
        invSlugs_init
      intro i hi
      have hi' : i < s.summary.dropLast.length := hi
      have hlt : i < s.summary.length := by
        rw [List.length_dropLast] at hi'
        omega
      have hget : s.summary.dropLast.get ⟨i, hi'⟩ = s.summary.get ⟨i, hlt⟩ := by
        simp only [List.get_eq_getElem]
        exact List.getElem_dropLast _ _ _
      have htake : s.summary.dropLast.take (i + 1) = s.summary.take (i + 1) := by
        rw [List.dropLast_eq_take, List.take_take]
        congr 1
        rw [List.length_dropLast] at hi'
        omega
      show (s.summary.dropLast.get ⟨i, hi'⟩).section_slug =
        lastD2 (s.summary.dropLast.take (i + 1))
      rw [hget, htake]
      exact hinv.2 i hlt
  refine ⟨hmain, ?_, ?_⟩
  · intro i hi hd
    have htake : m.summary.take (i + 1) =
        m.summary.take i ++ [m.summary.get ⟨i, hi⟩] := by
      rw [List.take_succ, List.getElem?_eq_getElem hi]
      simp
    rw [hmain i hi, htake, lastD2_append, if_pos hd]
  · intro hi hd
    have htake : m.summary.take 1 = [m.summary.get ⟨0, hi⟩] := by
      rw [show (1 : Nat) = 0 + 1 from rfl, List.take_succ,
          List.getElem?_eq_getElem hi]
      simp
    rw [hmain 0 hi, htake]
    simp only [List.get_eq_getElem] at hd
    simp [lastD2, hd]

theorem C9_section_slug_witness :
    ((modelOr (build idLine idLine
        ["# T".data, "## A".data, "### B".data])).summary.get
          ⟨2, by decide⟩).section_slug =
      lastD2 ((modelOr (build idLine idLine
        ["# T".data, "## A".data, "### B".data])).summary.take (2 + 1)) :=
  (C9_section_slug idLine idLine ["# T".data, "## A".data, "### B".data]
    (modelOr (build idLine idLine ["# T".data, "## A".data, "### B".data]))
    (by decide)).1 2 (by decide)

/-- C10: when the document leaves a code block unclosed (an odd number
of fence lines) and at least one heading was classified, the sentinel
line is consumed as ordinary buffered content instead of a heading, so
the unconditional `summary.pop()` removes the last real heading from the
summary and the section left open at end of input is never appended to
the section list: the model is exactly the scan state's `mainTitle`,
`summary` minus its last entry, and unchanged `sections`. -/
theorem C10_unclosed_fence (render ri : Line → Line) (doc : List Line)
    (s : BuildState) (hscan : scanLines render ri initState doc = .ok s)
    (hodd : doc.countP startsTicks % 2 = 1) (_hhead : s.summary ≠ []) :
    build render ri doc = .ok ⟨s.mainTitle, s.summary.dropLast, s.sections⟩ := by
  have hcb : s.inCodeBlock = true := by
    rw [scan_parity doc initState s hscan]
    simp [initState, hodd]
  have hlen : 2 ≤ s.summary.length :=
    (scan_preserves (fun _ _ _ hh hp => invFence_step hh hp)
      doc initState s hscan invFence_init) hcb
  have hhash : startsHash endSentinel = true := by decide
  have hguard : (startsHash endSentinel && !toggledCB s endSentinel) = false := by
    rw [toggledCB_of_startsHash hhash, hcb, hhash]
    rfl
  have hstep := @step_content_push render ri s endSentinel hguard hlen
  rw [build_eq_scan, scanLines_append_ok _ _ hscan,
      scanLines_cons_ok _ hstep, scanLines_nil]

theorem C10_unclosed_fence_witness :
    build idLine idLine
        ["# T".data, "## A".data, "```".data, "# not a heading".data] =
      .ok ⟨(scanOr (scanLines idLine idLine initState
          ["# T".data, "## A".data, "```".data, "# not a heading".data])).mainTitle,
        (scanOr (scanLines idLine idLine initState
          ["# T".data, "## A".data, "```".data,
           "# not a heading".data])).summary.dropLast,
        (scanOr (scanLines idLine idLine initState
          ["# T".data, "## A".data, "```".data,
           "# not a heading".data])).sections⟩ :=
  C10_unclosed_fence idLine idLine
    ["# T".data, "## A".data, "```".data, "# not a heading".data]
    (scanOr (scanLines idLine idLine initState
      ["# T".data, "## A".data, "```".data, "# not a heading".data]))
    (by decide) (by decide) (by decide)
